import Mathlib

/-!
A verification model of the haste entity delta decoder.

The definitions below are a shallow embedding of
`crates/haste_core/src/entities.rs` and
`crates/muerta/src/instancebaseline.rs`.  Machine integers are modelled
as `Nat` / `Int`; `u32` bit manipulation uses `Nat` bitwise operators.
External collaborators that are not part of the sources (the bit
reader, the field-path reader, the field decoders, and the
`dungers::rangealloc::RangeAlloc` allocator) are modelled from the
specification and marked as such in their doc comments.
-/

namespace Haste

/-! ## Constants (public/const.h, adjusted) -/

def MAX_EDICT_BITS : Nat := 14

def MAX_EDICTS : Nat := 1 <<< MAX_EDICT_BITS

def NUM_ENT_ENTRY_BITS : Nat := MAX_EDICT_BITS + 1

def NUM_SERIAL_NUM_BITS : Nat := 32 - NUM_ENT_ENTRY_BITS

def NUM_NETWORKED_EHANDLE_SERIAL_NUMBER_BITS : Nat := 10

def NUM_NETWORKED_EHANDLE_BITS : Nat :=
  MAX_EDICT_BITS + NUM_NETWORKED_EHANDLE_SERIAL_NUMBER_BITS

def INVALID_NETWORKED_EHANDLE_VALUE : Nat :=
  (1 <<< NUM_NETWORKED_EHANDLE_BITS) - 1

/-! ## Handle helpers -/

/-- `pub fn is_handle_valid(handle: u32) -> bool`:
`handle != INVALID_NETWORKED_EHANDLE_VALUE`. -/
def is_handle_valid (handle : Nat) : Bool :=
  handle ≠ INVALID_NETWORKED_EHANDLE_VALUE

/-- `pub fn handle_to_index(handle: u32) -> usize`:
`(handle & ((1 << MAX_EDICT_BITS) - 1)) as usize`. -/
def handle_to_index (handle : Nat) : Nat :=
  handle &&& ((1 <<< MAX_EDICT_BITS) - 1)

/-! ## Bit reader (spec-modelled) and DeltaHeader -/

/-- Modelled from the spec: the `BitReader` lives in `bitbuf.rs`, which is
not among the provided sources.  Per §6 the stream is consumed with
MSB-first bit packing; the reader is a cursor over a list of bits. -/
structure BitReader where
  bits : List Bool
deriving DecidableEq, Repr

/-- Modelled from the spec: reading `n` bits MSB-first yields the natural
number whose binary digits are those bits in stream order, and advances
the cursor. -/
def BitReader.readBitsVal (br : BitReader) (n : Nat) : Nat × BitReader :=
  ((br.bits.take n).foldl (fun a b => 2 * a + (if b then 1 else 0)) 0,
    ⟨br.bits.drop n⟩)

/-- `pub struct DeltaHeader(u8)`. -/
structure DeltaHeader where
  val : Nat
deriving DecidableEq, Repr

def DeltaHeader.UPDATE : DeltaHeader := ⟨0b00⟩

def DeltaHeader.CREATE : DeltaHeader := ⟨0b10⟩

def DeltaHeader.LEAVE : DeltaHeader := ⟨0b01⟩

def DeltaHeader.DELETE : DeltaHeader := ⟨0b11⟩

/-- `DeltaHeader::from_bit_reader`: reads 2 bits into a byte and wraps it. -/
def DeltaHeader.from_bit_reader (br : BitReader) : DeltaHeader × BitReader :=
  let (v, br') := br.readBitsVal 2
  (⟨v⟩, br')

/-! ## Range allocator (spec-modelled) -/

/-- Modelled from the spec: `dungers::rangealloc::RangeAlloc` is an
external crate, not among the provided sources.  Per §4.1 it hands out
and reclaims half-open sub-ranges of a fixed universe; a first-fit
free-list is an acceptable policy.  Ranges are pairs `(start, end)`. -/
structure RangeAlloc where
  free : List (Nat × Nat)
deriving DecidableEq, Repr

/-- `RangeAlloc::new(0..n)`: one free range covering the universe. -/
def RangeAlloc.new (n : Nat) : RangeAlloc := ⟨[(0, n)]⟩

/-- First-fit scan of the free list: take the first free range that can
hold `n` indices, split off its prefix of length exactly `n`. -/
def allocFirstFit (n : Nat) :
    List (Nat × Nat) → Option ((Nat × Nat) × List (Nat × Nat))
  | [] => none
  | (s, e) :: rest =>
    if n ≤ e - s then
      some ((s, s + n), if s + n < e then (s + n, e) :: rest else rest)
    else
      match allocFirstFit n rest with
      | some (r, rest') => some (r, (s, e) :: rest')
      | none => none

/-- `allocate(n)`: a range of length exactly `n`, or exhaustion. -/
def RangeAlloc.allocate (a : RangeAlloc) (n : Nat) :
    Option ((Nat × Nat) × RangeAlloc) :=
  match allocFirstFit n a.free with
  | some (r, f) => some (r, ⟨f⟩)
  | none => none

/-- `deallocate(range)`: return the range to the free pool. -/
def RangeAlloc.deallocate (a : RangeAlloc) (r : Nat × Nat) : RangeAlloc :=
  ⟨a.free ++ [r]⟩

/-! ## FieldState -/

/-- Field values are opaque to the core (produced by external decoders,
consumed by callers); they are modelled as `Nat`. -/
abbrev FieldValue := Nat

/-- `struct FieldState { value: Option<FieldValue>, children: Option<Range<usize>> }`.
The `children` range is a half-open pair of indices into the shared
node arena. -/
structure FieldState where
  value : Option FieldValue := none
  children : Option (Nat × Nat) := none
deriving DecidableEq, Repr

instance : Inhabited FieldState := ⟨{}⟩

/-- The shared node arena `buf: &mut [FieldState]`, modelled as a total
map from arena index to node. -/
abbrev Arena := Nat → FieldState

/-- During `FieldState::set` the current node `node` is either the root
(held by the entity, outside the arena) or an arena slot. -/
inductive Loc where
  | root : Loc
  | arena : Nat → Loc
deriving DecidableEq, Repr

/-- The mutable state threaded through `FieldState::set`: the root node,
the arena and the allocator. -/
structure SetSt where
  root : FieldState
  buf : Arena
  alloc : RangeAlloc

def SetSt.getNode (st : SetSt) : Loc → FieldState
  | .root => st.root
  | .arena i => st.buf i

def SetSt.putNode (st : SetSt) : Loc → FieldState → SetSt
  | .root, n => { st with root := n }
  | .arena i, n => { st with buf := fun j => if j = i then n else st.buf j }

/-- `next_view.swap_with_slice(prev_view)`: exchange the contents of
`[s, s+len)` and `[t, t+len)` in the arena. -/
def swapRanges (b : Arena) (s t len : Nat) : Arena := fun j =>
  if s ≤ j ∧ j < s + len then b (t + (j - s))
  else if t ≤ j ∧ j < t + len then b (s + (j - t))
  else b j

/-- One iteration of the loop body of `FieldState::set` for path
component `i` at the current node:

* node has children `(s, e)` and `i < len`: descend to `buf[s + i]`;
* node has children and `i ≥ len`: allocate `len * GROWTH_FACTOR`
  (GROWTH_FACTOR = 2), swap the old view into the new range, point
  `children` at the whole new range, deallocate the old range, descend
  to `buf[next.start + i]`;
* node has no children: allocate `i.max(8)`, point `children` at it,
  descend to `buf[range.start + i]`. -/
def FieldState.setStep (st : SetSt) (loc : Loc) (i : Nat) :
    Option (SetSt × Loc) :=
  let node := st.getNode loc
  match node.children with
  | some (s, e) =>
    let len := e - s
    if len ≤ i then
      match st.alloc.allocate (len * 2) with
      | none => none
      | some (nr, alloc') =>
        let buf' := swapRanges st.buf s nr.1 len
        let node' := { node with children := some nr }
        let st' := { st with buf := buf',
                             alloc := alloc'.deallocate (s, e) }
        some (st'.putNode loc node', .arena (nr.1 + i))
    else
      some (st, .arena (s + i))
  | none =>
    match st.alloc.allocate (max i 8) with
    | none => none
    | some (nr, alloc') =>
      let node' := { node with children := some nr }
      some (({ st with alloc := alloc' }).putNode loc node', .arena (nr.1 + i))

/-- The walk of `FieldState::set` over all path components. -/
def FieldState.setGo (st : SetSt) (loc : Loc) :
    List Nat → Option (SetSt × Loc)
  | [] => some (st, loc)
  | i :: rest =>
    match FieldState.setStep st loc i with
    | none => none
    | some (st', loc') => FieldState.setGo st' loc' rest

/-- `FieldState::set(fp, fv, buf, alloc)`: walk the path from the root,
creating or growing child ranges as needed, then store `Some(fv)` in
the terminal node.  Failure is allocator exhaustion. -/
def FieldState.set (root : FieldState) (fp : List Nat) (fv : FieldValue)
    (buf : Arena) (alloc : RangeAlloc) :
    Option (FieldState × Arena × RangeAlloc) :=
  match FieldState.setGo ⟨root, buf, alloc⟩ .root fp with
  | none => none
  | some (st, loc) =>
    let node := st.getNode loc
    let st' := st.putNode loc { node with value := some fv }
    some (st'.root, st'.buf, st'.alloc)

/-- Modelled from the spec (§8, invariant 2: "reading the value at any
path"): the observation function on a field-state tree.  A component
that falls outside the node's children range, or hits a node with no
children, reads as unset. -/
def FieldState.get (node : FieldState) (buf : Arena) :
    List Nat → Option FieldValue
  | [] => node.value
  | i :: rest =>
    match node.children with
    | none => none
    | some (s, e) =>
      if i < e - s then FieldState.get (buf (s + i)) buf rest else none

/-! ## Entity and EntityContainer -/

/-- `pub struct Entity { index: i32, serializer: Rc<FlattenedSerializer>, state: FieldState }`.
The flattened serializer is external schema data; only its identity
(the network-name hash that resolved it) matters to the container, so
it is modelled by that hash. -/
structure Entity where
  index : Int
  serializer : Nat
  state : FieldState
deriving DecidableEq, Repr

/-- The decoded content of an entity payload.  Modelled from the spec:
`read_field_paths`, the schema walk and the per-field decoders live in
`fieldpath.rs` / `flattenedserializers.rs` / `fielddecoder.rs`, which
are not among the provided sources; per §4.3 they turn the bit stream
into a sequence of (field path, field value) pairs which `parse`
applies in order via `FieldState::set`. -/
abbrev Payload := List (List Nat × FieldValue)

/-- `Entity::parse`: apply each decoded (path, value) pair to the field
state in stream order.  The source `unwrap()`s allocator exhaustion
inside the loop; that panic is modelled as `none`. -/
def Entity.parse (e : Entity) (payload : Payload) (buf : Arena)
    (alloc : RangeAlloc) : Option (Entity × Arena × RangeAlloc) :=
  match payload with
  | [] => some (e, buf, alloc)
  | (fp, fv) :: rest =>
    match FieldState.set e.state fp fv buf alloc with
    | none => none
    | some (st', buf', alloc') =>
      Entity.parse { e with state := st' } rest buf' alloc'

/-- `hashbrown::HashMap<i32, Entity>` lookup, modelled on an association
list with unique keys kept by `assocInsert`. -/
def assocLookup (m : List (Int × Entity)) (k : Int) : Option Entity :=
  match m with
  | [] => none
  | (k', v) :: rest => if k' = k then some v else assocLookup rest k

/-- `HashMap::insert` semantics: the new binding replaces any previous
binding of the same key. -/
def assocInsert (m : List (Int × Entity)) (k : Int) (v : Entity) :
    List (Int × Entity) :=
  (k, v) :: m.filter (fun p => p.1 ≠ k)

/-- `pub struct EntityContainer`.  `field_paths` is a reusable scratch
vector for the external path reader and is not modelled (payloads are
already decoded, see `Payload`).  `fetch_log` is instrumentation with
no behavioural effect: it records the class ids whose instance-baseline
bytes were fetched and parsed, in order — the "counting mock baseline
source" of spec §8. -/
structure EntityContainer where
  entities : List (Int × Entity)
  baseline_entities : List (Int × Entity)
  field_states : Arena
  field_states_alloc : RangeAlloc
  fetch_log : List Int

/-- `EntityContainer::new()`: empty maps, a zeroed arena of `128 << 10`
nodes and an allocator over `0..128 << 10`. -/
def EntityContainer.new : EntityContainer :=
  { entities := []
    baseline_entities := []
    field_states := fun _ => {}
    field_states_alloc := RangeAlloc.new (128 <<< 10)
    fetch_log := [] }

/-- `EntityContainer::handle_create`.  The class id, serial and varint
are read from the bit stream by external readers; the resolved
`class_id` and serializer hash are taken as arguments, and the decoded
instance-baseline bytes for the class and the delta payload are passed
as `Payload`s.

* If `baseline_entities` already holds the class: clone the cached
  entity, override its `index` with the slot index, and parse the delta
  into the clone.  The baseline source is not touched.
* Otherwise: build a fresh entity with empty state, parse the baseline
  payload into it, insert a clone into `baseline_entities` (recording
  the fetch in `fetch_log`), then parse the delta into the entity.

Finally insert the entity into `entities` at the slot index. -/
def EntityContainer.handle_create (c : EntityContainer)
    (index class_id : Int) (serializer : Nat)
    (baseline_payload delta_payload : Payload) : Option EntityContainer :=
  match assocLookup c.baseline_entities class_id with
  | some cached =>
    match Entity.parse { cached with index := index } delta_payload
        c.field_states c.field_states_alloc with
    | none => none
    | some (e2, b2, a2) =>
      some { c with entities := assocInsert c.entities index e2,
                    field_states := b2, field_states_alloc := a2 }
  | none =>
    let fresh : Entity := { index := index, serializer := serializer, state := {} }
    match Entity.parse fresh baseline_payload c.field_states
        c.field_states_alloc with
    | none => none
    | some (e1, b1, a1) =>
      match Entity.parse e1 delta_payload b1 a1 with
      | none => none
      | some (e2, b2, a2) =>
        some { entities := assocInsert c.entities index e2,
               baseline_entities :=
                 assocInsert c.baseline_entities class_id e1,
               field_states := b2,
               field_states_alloc := a2,
               fetch_log := c.fetch_log ++ [class_id] }

/-- `handle_delete_unchecked`: remove and return the entity at the slot.
The source `unwrap_unchecked()`s a missing slot; modelled as `Option`. -/
def EntityContainer.handle_delete_unchecked (c : EntityContainer)
    (index : Int) : Option (EntityContainer × Entity) :=
  match assocLookup c.entities index with
  | none => none
  | some e =>
    some ({ c with entities := c.entities.filter (fun p => p.1 ≠ index) }, e)

/-- `pub fn clear(&mut self)`: `self.entities.clear();
self.baseline_entities.clear();` — nothing else is touched. -/
def EntityContainer.clear (c : EntityContainer) : EntityContainer :=
  { c with entities := [], baseline_entities := [] }

/-- `pub fn is_empty(&self) -> bool`: `self.entities.is_empty()`. -/
def EntityContainer.is_empty (c : EntityContainer) : Bool :=
  c.entities.isEmpty

/-! ## fxhash (spec-modelled) and make_field_key -/

/-- Modelled from the spec: the `fxhash` module is not among the
provided sources; §4.5 requires a deterministic "Fx-style multiply-xor
mixer".  64-bit rotate-left by 5. -/
def rotl64 (h : Nat) : Nat :=
  (((h % 2 ^ 64) <<< 5) ||| ((h % 2 ^ 64) >>> 59)) % 2 ^ 64

/-- Modelled from the spec: the Fx mixing constant. -/
def FX_SEED : Nat := 0x517cc1b727220a95

/-- Modelled from the spec: `fxhash::add_u64_to_hash`, the Fx-style
multiply-xor mixing step on 64-bit words. -/
def add_u64_to_hash (hash x : Nat) : Nat :=
  ((rotl64 hash ^^^ (x % 2 ^ 64)) * FX_SEED) % 2 ^ 64

/-- Modelled from the spec: `fxhash::hash_bytes` over a byte string,
folding the mixer over the bytes (the source's word-at-a-time chunking
is an encoding detail of the same deterministic fold). -/
def hash_bytes (bytes : List Nat) : Nat :=
  bytes.foldl (fun h b => add_u64_to_hash h b) 0

/-- The `while i < path.len()` loop of `make_field_key`, accumulating
`hash = add_u64_to_hash(hash, hash_bytes(path[i]))` from index `i`. -/
def mfkLoop (path : List (List Nat)) (hash : Nat) (i : Nat) : Nat :=
  if h : i < path.length then
    mfkLoop path (add_u64_to_hash hash (hash_bytes (path.get ⟨i, h⟩))) (i + 1)
  else hash
termination_by path.length - i

/-- `pub const fn make_field_key(path: &[&str]) -> u64`: asserts the
path is non-empty (the failed assertion, a panic with "invalid path",
is modelled as `none`), seeds with the hash of segment 0, then folds
`add_u64_to_hash` over the hashes of the remaining segments.  Segments
are byte strings, modelled as `List Nat`. -/
def make_field_key (path : List (List Nat)) : Option Nat :=
  match path with
  | [] => none
  | p0 :: _ => some (mfkLoop path (hash_bytes p0) 1)

/-! ## InstanceBaseline (crates/muerta/src/instancebaseline.rs) -/

/-- A string-table item: an optional class-id string and an optional
user-data blob (bytes). -/
structure STItem where
  string : Option (List Char)
  user_data : Option (List Nat)
deriving DecidableEq, Repr

/-- `StringTable`: the items in iteration order, keyed by entity index. -/
structure StringTable where
  items : List (Int × STItem)
deriving DecidableEq, Repr

/-- Rust `str::parse::<i32>()`: optional sign, at least one decimal
digit, no other characters, result within `i32` bounds. -/
def parseI32 (s : List Char) : Option Int :=
  let core : Int → List Char → Option Int := fun sign digits =>
    if digits.isEmpty then none
    else if digits.all (fun d => 48 ≤ d.toNat ∧ d.toNat ≤ 57) then
      let v : Int :=
        sign * digits.foldl (fun a d => 10 * a + ((d.toNat : Int) - 48)) 0
      if -(2 ^ 31) ≤ v ∧ v < 2 ^ 31 then some v else none
    else none
  match s with
  | [] => none
  | c :: rest =>
    if c = '+' then core 1 rest
    else if c = '-' then core (-1) rest
    else core 1 s

/-- `pub struct InstanceBaseline { strs: Vec<Option<Vec<u8>>> }`. -/
structure InstanceBaseline where
  strs : List (Option (List Nat))
deriving DecidableEq, Repr

/-- Outcome of `InstanceBaseline::update`: `ok` for `Ok(())`,
`parseIntErr` for `Err(ParseIntError)`, and `fault` for a Rust panic
(the `expect` on a missing string, or an out-of-bounds index into
`strs` — including a negative class id cast to `usize`). -/
inductive UpdateResult where
  | ok : InstanceBaseline → UpdateResult
  | parseIntErr : UpdateResult
  | fault : UpdateResult
deriving DecidableEq, Repr

/-- The item loop of `update`, over the already-resized `strs`. -/
def updateGo (strs : List (Option (List Nat))) :
    List (Int × STItem) → UpdateResult
  | [] => .ok ⟨strs⟩
  | (_, item) :: rest =>
    match item.string with
    | none => .fault
    | some s =>
      match parseI32 s with
      | none => .parseIntErr
      | some cid =>
        if 0 ≤ cid ∧ cid.toNat < strs.length then
          updateGo (strs.set cid.toNat item.user_data) rest
        else .fault

/-- `InstanceBaseline::update`: grow `strs` to `classes` entries if it
is shorter, then for each item in order parse its class-id string as a
decimal `i32` and store the item's user data at that index. -/
def InstanceBaseline.update (ib : InstanceBaseline) (st : StringTable)
    (classes : Nat) : UpdateResult :=
  let strs0 :=
    if ib.strs.length < classes then
      ib.strs ++ List.replicate (classes - ib.strs.length) none
    else ib.strs
  updateGo strs0 st.items

/-- `InstanceBaseline::get_data`: the stored blob for the class id.  The
source reads with `get_unchecked` (out of bounds is UB); an
out-of-bounds or negative id is modelled as `none`. -/
def InstanceBaseline.get_data (ib : InstanceBaseline) (class_id : Int) :
    Option (List Nat) :=
  if 0 ≤ class_id then (ib.strs.getD class_id.toNat none) else none

/-- The user data of the last item of `items` whose class-id string
parses to `cid`, if any (last-write-wins view of the item sequence,
which is what repeated `strs[class_id] = ...` assignments produce). -/
def lastData : List (Int × STItem) → Int → Option (Option (List Nat))
  | [], _ => none
  | p :: rest, cid =>
    match lastData rest cid with
    | some ud => some ud
    | none =>
      match p.2.string.bind parseI32 with
      | some c => if c = cid then some p.2.user_data else none
      | none => none

/-! ## Concrete runs used to settle claims on explicit inputs -/

/-- `FieldState::set` of path `[8]` with value `42` on a node with no
children, starting from the fresh container arena and allocator. -/
def setFresh8 : Option (FieldState × Arena × RangeAlloc) :=
  FieldState.set {} [8] 42 (fun _ => {}) (RangeAlloc.new (128 <<< 10))

/-- `set [0] := 1` (creates a range of length 8) followed by
`set [16] := 2` (forces the grow path with `i ≥ 2·len`). -/
def setGrow16 : Option (FieldState × Arena × RangeAlloc) :=
  (FieldState.set {} [0] 1 (fun _ => {}) (RangeAlloc.new (128 <<< 10))).bind
    (fun t => FieldState.set t.1 [16] 2 t.2.1 t.2.2)

/-- A CREATE on a fresh container: slot 1, class 7, baseline bytes that
decode to `[0] := 100`, delta payload that writes `[0] := 75`. -/
def demoCreate : Option EntityContainer :=
  EntityContainer.new.handle_create 1 7 0 [([0], 100)] [([0], 75)]

/-- `InstanceBaseline::update` on an empty baseline with `classes = 3`
and a single item whose class-id string is `"5"` (which parses fine but
indexes `strs` out of bounds). -/
def updateOob : UpdateResult :=
  InstanceBaseline.update ⟨[]⟩ ⟨[(0, ⟨some ['5'], some [1]⟩)]⟩ 3

/-- The container after a first CREATE (slot 1, class 7, empty baseline
and delta payloads) on a fresh container. -/
def afterFirstCreate : EntityContainer :=
  { entities := [(1, ⟨1, 0, ⟨none, none⟩⟩)]
    baseline_entities := [(7, ⟨1, 0, ⟨none, none⟩⟩)]
    field_states := fun _ => ⟨none, none⟩
    field_states_alloc := ⟨[(0, 131072)]⟩
    fetch_log := [7] }

/-- The container after a second CREATE of the same class 7 at slot 9. -/
def afterSecondCreate : EntityContainer :=
  { afterFirstCreate with
    entities := [(9, ⟨9, 0, ⟨none, none⟩⟩), (1, ⟨1, 0, ⟨none, none⟩⟩)] }

/-! ## Helper lemmas -/

theorem assocLookup_insert (m : List (Int × Entity)) (k : Int) (v : Entity) :
    assocLookup (assocInsert m k v) k = some v := by
  simp [assocInsert, assocLookup]

theorem allocFirstFit_bounds :
    ∀ (f : List (Nat × Nat)) (n x y : Nat) (f' : List (Nat × Nat)),
      allocFirstFit n f = some ((x, y), f') → y = x + n := by
  intro f
  induction f with
  | nil => intro n x y f' h; simp [allocFirstFit] at h
  | cons p rest ih =>
    intro n x y f' h
    obtain ⟨s, e⟩ := p
    unfold allocFirstFit at h
    by_cases hfit : n ≤ e - s
    · rw [if_pos hfit] at h
      injection h with h'
      have hx : (s, s + n) = (x, y) := congrArg Prod.fst h'
      injection hx with hx1 hx2
      omega
    · rw [if_neg hfit] at h
      cases hm : allocFirstFit n rest with
      | none => rw [hm] at h; exact absurd h (by simp)
      | some r =>
        obtain ⟨⟨x', y'⟩, rest'⟩ := r
        rw [hm] at h
        injection h with h'
        cases h'
        exact ih n x y rest' hm

theorem RangeAlloc.allocate_bounds (a : RangeAlloc) (n x y : Nat)
    (a' : RangeAlloc) (h : a.allocate n = some ((x, y), a')) : y = x + n := by
  unfold RangeAlloc.allocate at h
  cases hm : allocFirstFit n a.free with
  | none => rw [hm] at h; exact absurd h (by simp)
  | some r =>
    obtain ⟨⟨x', y'⟩, f'⟩ := r
    rw [hm] at h
    injection h with h'
    cases h'
    exact allocFirstFit_bounds a.free n x y f' hm

theorem SetSt.getNode_putNode (st : SetSt) (loc : Loc) (n : FieldState) :
    (st.putNode loc n).getNode loc = n := by
  cases loc <;> simp [SetSt.putNode, SetSt.getNode]

theorem SetSt.putNode_alloc (st : SetSt) (loc : Loc) (n : FieldState) :
    (st.putNode loc n).alloc = st.alloc := by
  cases loc <;> simp [SetSt.putNode]

theorem handle_to_index_eq_mod (h : Nat) :
    handle_to_index h = h % 2 ^ 14 := by
  unfold handle_to_index MAX_EDICT_BITS
  have h1 : (1 <<< 14 : Nat) = 2 ^ 14 := by
    rw [Nat.shiftLeft_eq, one_mul]
  rw [h1, Nat.and_pow_two_sub_one_eq_mod]

theorem mfkLoop_eq (path : List (List Nat)) :
    ∀ (n i : Nat) (hash : Nat), path.length - i = n →
      mfkLoop path hash i =
        List.foldl add_u64_to_hash hash ((path.drop i).map hash_bytes) := by
  intro n
  induction n with
  | zero =>
    intro i hash hn
    unfold mfkLoop
    have hi : ¬ i < path.length := by omega
    rw [dif_neg hi, List.drop_eq_nil_of_le (by omega)]
    rfl
  | succ n ih =>
    intro i hash hn
    unfold mfkLoop
    have hi : i < path.length := by omega
    rw [dif_pos hi, ih (i + 1) _ (by omega),
      List.drop_eq_getElem_cons hi, List.map_cons, List.foldl_cons]
    rfl

/-! ## Claim theorems -/

/-- C6: for every slot index `i < MAX_EDICTS` and serial `s < 1024`,
`handle_to_index (i ||| (s <<< 14)) = i`; `is_handle_valid` is false on
the sentinel `0xFFFFFF` and true on every other value below it. -/
theorem handle_roundtrip_and_sentinel :
    (∀ i s : Nat, i < MAX_EDICTS → s < 1024 →
      handle_to_index (i ||| (s <<< 14)) = i) ∧
    is_handle_valid 0xFFFFFF = false ∧
    (∀ h : Nat, h < 0xFFFFFF → is_handle_valid h = true) := by
  refine ⟨?_, by decide, ?_⟩
  · intro i s hi _
    have hi' : i < 2 ^ 14 := by
      have : MAX_EDICTS = 2 ^ 14 := by decide
      omega
    rw [handle_to_index_eq_mod]
    apply Nat.eq_of_testBit_eq
    intro j
    rw [Nat.testBit_mod_two_pow, Nat.testBit_or, Nat.testBit_shiftLeft]
    by_cases hj : j < 14
    · have h14 : ¬ 14 ≤ j := by omega
      simp [hj, h14]
    · have hfalse : i.testBit j = false :=
        Nat.testBit_lt_two_pow
          (lt_of_lt_of_le hi' (Nat.pow_le_pow_right (by omega) (by omega)))
      simp [hj, hfalse]
  · intro h hh
    have : h ≠ INVALID_NETWORKED_EHANDLE_VALUE := by
      have : INVALID_NETWORKED_EHANDLE_VALUE = 0xFFFFFF := by decide
      omega
    simp [is_handle_valid, this]

/-- Witness for C6 at `i = 3`, `s = 5` and `h = 9`. -/
theorem handle_roundtrip_and_sentinel_witness :
    handle_to_index (3 ||| (5 <<< 14)) = 3 ∧ is_handle_valid 9 = true :=
  ⟨handle_roundtrip_and_sentinel.1 3 5 (by decide) (by decide),
   handle_roundtrip_and_sentinel.2.2 9 (by decide)⟩

/-- C9: `is_handle_valid` accepts every `u32` other than the single
sentinel `0x00FFFFFF`, including values at or above `2^24` such as
`0xFFFFFFFF`, and `handle_to_index` returns the low 14 bits of any
`u32`, with no range or validity check. -/
theorem handle_fns_total_on_u32 :
    (∀ h : Nat, h < 2 ^ 32 → h ≠ 0xFFFFFF → is_handle_valid h = true) ∧
    is_handle_valid 0xFFFFFFFF = true ∧
    (∀ h : Nat, h < 2 ^ 32 → handle_to_index h = h % 2 ^ 14) := by
  refine ⟨?_, by decide, fun h _ => handle_to_index_eq_mod h⟩
  intro h _ hne
  have : h ≠ INVALID_NETWORKED_EHANDLE_VALUE := by
    have : INVALID_NETWORKED_EHANDLE_VALUE = 0xFFFFFF := by decide
    omega
  simp [is_handle_valid, this]

/-- Witness for C9 at `h = 0x12345678`. -/
theorem handle_fns_total_on_u32_witness :
    is_handle_valid 0x12345678 = true ∧
    handle_to_index 0x12345678 = 0x12345678 % 2 ^ 14 :=
  ⟨handle_fns_total_on_u32.1 0x12345678 (by decide) (by decide),
   handle_fns_total_on_u32.2.2 0x12345678 (by decide)⟩

/-- C7: feeding exactly the two-bit patterns `00`, `10`, `01`, `11`
(MSB-first) to `DeltaHeader::from_bit_reader` yields `UPDATE`,
`CREATE`, `LEAVE` and `DELETE` respectively. -/
theorem delta_header_two_bit_patterns :
    (DeltaHeader.from_bit_reader ⟨[false, false]⟩).1 = DeltaHeader.UPDATE ∧
    (DeltaHeader.from_bit_reader ⟨[true, false]⟩).1 = DeltaHeader.CREATE ∧
    (DeltaHeader.from_bit_reader ⟨[false, true]⟩).1 = DeltaHeader.LEAVE ∧
    (DeltaHeader.from_bit_reader ⟨[true, true]⟩).1 = DeltaHeader.DELETE := by
  decide

/-- C10: `make_field_key` on the empty path fails its assertion
(modelled as `none`); on a non-empty path it returns the left fold of
`add_u64_to_hash` over the hashes of segments `1..n`, seeded with the
hash of segment 0; and it is deterministic. -/
theorem make_field_key_fold_spec :
    make_field_key [] = none ∧
    (∀ (p0 : List Nat) (rest : List (List Nat)),
      make_field_key (p0 :: rest) =
        some (List.foldl add_u64_to_hash (hash_bytes p0)
          (rest.map hash_bytes))) ∧
    (∀ path : List (List Nat), make_field_key path = make_field_key path) := by
  refine ⟨rfl, ?_, fun _ => rfl⟩
  intro p0 rest
  show some (mfkLoop (p0 :: rest) (hash_bytes p0) 1) = _
  rw [mfkLoop_eq (p0 :: rest) ((p0 :: rest).length - 1) 1 (hash_bytes p0) rfl]
  rfl

/-- Witness for C10 on the path `[[1, 2], [3]]`. -/
theorem make_field_key_fold_spec_witness :
    make_field_key [[1, 2], [3]] =
      some (List.foldl add_u64_to_hash (hash_bytes [1, 2])
        ([[3]].map hash_bytes)) :=
  make_field_key_fold_spec.2.1 [1, 2] [[3]]

/-- C2: the source allocates `i.max(8)` — not `max(i + 1, 8)` — for a
node with no children, then writes at offset `i`.  At the failing input
`set [8]` the fresh children range is `[0, 8)` of length 8 (the claim
requires length ≥ 9), and the write at offset 8 lands outside the
range, so the stored value is unobservable through the children range:
`get [8]` reads back unset. -/
theorem set_fresh_range_off_by_one :
    setFresh8.map (fun t => t.1.children) = some (some (0, 8)) ∧
    setFresh8.bind (fun t => FieldState.get t.1 t.2.1 [8]) = none ∧
    setFresh8.map (fun t => t.2.2) = some ⟨[(8, 131072)]⟩ := by
  exact ⟨rfl, rfl, rfl⟩

/-- C3: `clear()` empties both maps and `is_empty()` then holds, but the
arena allocator is NOT restored to its initial free state: after one
CREATE that allocated `[0, 8)`, clearing leaves the free list at
`[(8, 131072)]`, not the single free range `[(0, 131072)]` of
`RangeAlloc::new`. -/
theorem clear_leaves_allocator_unchanged :
    demoCreate.map (fun c => (EntityContainer.clear c).is_empty) = some true ∧
    demoCreate.map (fun c => ((EntityContainer.clear c).entities,
      (EntityContainer.clear c).baseline_entities)) =
      some (([] : List (Int × Entity)), ([] : List (Int × Entity))) ∧
    demoCreate.map (fun c => (EntityContainer.clear c).field_states_alloc) =
      some ⟨[(8, 131072)]⟩ ∧
    (⟨[(8, 131072)]⟩ : RangeAlloc) ≠ RangeAlloc.new (128 <<< 10) := by
  exact ⟨rfl, rfl, rfl, by decide⟩

/-- C4 fails as stated: growth is a single doubling, not repeated
doubling "until `i` fits".  Setting `[0]` creates a range of length 8;
setting `[16]` then grows it to the range `[8, 24)` of length exactly
16, and `i = 16` does not fit within it. -/
theorem set_grow_single_doubling_cex :
    setGrow16.map (fun t => t.1.children) = some (some (8, 24)) ∧
    ¬ (16 < 24 - 8) := by
  exact ⟨rfl, by decide⟩

/-- C4 (amended): for a node with children `[s, e)` of length
`len = e - s` and a component `i ≥ len`, one `set` step allocates a new
range of length `len * 2` (a single doubling), copies the `len`
existing children into it preserving order, points the node's children
at the whole new range, returns the old range to the allocator, and
descends to offset `i` in the new range.  The hypotheses require the
allocator to return a range disjoint from the old one and from the
current node's own slot, which the allocator discipline guarantees. -/
theorem setStep_grow_doubles_once (st : SetSt) (loc : Loc)
    (i s e ns ne : Nat) (a' : RangeAlloc)
    (hch : (st.getNode loc).children = some (s, e))
    (hlen : e - s ≤ i)
    (halloc : st.alloc.allocate ((e - s) * 2) = some ((ns, ne), a'))
    (hdisj : e ≤ ns ∨ ns + (e - s) ≤ s)
    (hloc : ∀ j, loc = Loc.arena j → ¬ (ns ≤ j ∧ j < ns + (e - s))) :
    ∃ st', FieldState.setStep st loc i = some (st', Loc.arena (ns + i)) ∧
      (st'.getNode loc).children = some (ns, ne) ∧
      ne = ns + (e - s) * 2 ∧
      (∀ k, k < e - s → st'.buf (ns + k) = st.buf (s + k)) ∧
      (s, e) ∈ st'.alloc.free := by
  have hne : ne = ns + (e - s) * 2 :=
    RangeAlloc.allocate_bounds st.alloc ((e - s) * 2) ns ne a' halloc
  have hswap : ∀ k, k < e - s →
      swapRanges st.buf s ns (e - s) (ns + k) = st.buf (s + k) := by
    intro k hk
    unfold swapRanges
    have h1 : ¬ (s ≤ ns + k ∧ ns + k < s + (e - s)) := by omega
    have h2 : ns ≤ ns + k ∧ ns + k < ns + (e - s) := by omega
    rw [if_neg h1, if_pos h2]
    congr 1
    omega
  refine ⟨SetSt.putNode
      { st with buf := swapRanges st.buf s ns (e - s),
                alloc := a'.deallocate (s, e) }
      loc { st.getNode loc with children := some (ns, ne) },
    ?_, by rw [SetSt.getNode_putNode], hne, ?_, ?_⟩
  · simp only [FieldState.setStep, hch]
    rw [if_pos hlen, halloc]
  · intro k hk
    cases loc with
    | root => exact hswap k hk
    | arena j =>
      have hj : ¬ (ns ≤ j ∧ j < ns + (e - s)) := hloc j rfl
      show (if ns + k = j then _ else swapRanges st.buf s ns (e - s) (ns + k))
        = st.buf (s + k)
      rw [if_neg (by omega)]
      exact hswap k hk
  · rw [SetSt.putNode_alloc]
    show (s, e) ∈ (a'.deallocate (s, e)).free
    unfold RangeAlloc.deallocate
    simp

/-- Witness for C4 (amended): growing the length-8 range `[0, 8)` for
component 16 from the state reached by `set [0]` on a fresh container. -/
theorem setStep_grow_doubles_once_witness :
    ∃ st', FieldState.setStep
        ⟨⟨none, some (0, 8)⟩, fun _ => {}, ⟨[(8, 131072)]⟩⟩
        Loc.root 16 = some (st', Loc.arena (8 + 16)) ∧
      (st'.getNode Loc.root).children = some (8, 24) ∧
      24 = 8 + (8 - 0) * 2 ∧
      (∀ k, k < 8 - 0 →
        st'.buf (8 + k) =
          (⟨⟨none, some (0, 8)⟩, fun _ => {}, ⟨[(8, 131072)]⟩⟩ : SetSt).buf
            (0 + k)) ∧
      (0, 8) ∈ st'.alloc.free :=
  setStep_grow_doubles_once
    ⟨⟨none, some (0, 8)⟩, fun _ => {}, ⟨[(8, 131072)]⟩⟩
    Loc.root 16 0 8 8 24 ⟨[(24, 131072)]⟩ rfl (by decide) rfl
    (Or.inl (by decide)) (fun j h => nomatch h)

/-- C1 fails as stated: the cached baseline entity shares arena ranges
with the created clone, so parsing the delta payload into the clone
mutates the cached entity's observable values.  On a fresh container,
CREATE of class 7 with baseline bytes decoding to `[0] := 100` and a
delta writing `[0] := 75` leaves the cached baseline entity reading
`75` — not the baseline value `100` — at path `[0]`. -/
theorem baseline_cache_mutated_by_delta :
    demoCreate.bind (fun c => (assocLookup c.baseline_entities 7).bind
      (fun e => FieldState.get e.state c.field_states [0])) = some 75 ∧
    (some 75 : Option FieldValue) ≠ some 100 :=
  ⟨rfl, by decide⟩

/-- C1 (amended): the baseline cache is populated before delta
mutation, and with an empty delta payload it stays pristine: for a
class not yet cached, `handle_create` stores under the class id exactly
the entity obtained by parsing the instance-baseline bytes, the
container's arena is the arena produced by that parse, and every
observable value of the cached entity equals the corresponding value of
the baseline parse.  (A non-empty delta payload may mutate the cached
entity through the shared arena ranges.) -/
theorem handle_create_pristine_baseline_empty_delta (c0 : EntityContainer)
    (idx cid : Int) (ser : Nat) (bp : Payload)
    (e1 : Entity) (b1 : Arena) (a1 : RangeAlloc)
    (hmiss : assocLookup c0.baseline_entities cid = none)
    (hparse : Entity.parse { index := idx, serializer := ser, state := {} }
      bp c0.field_states c0.field_states_alloc = some (e1, b1, a1)) :
    ∃ c', c0.handle_create idx cid ser bp [] = some c' ∧
      assocLookup c'.baseline_entities cid = some e1 ∧
      c'.field_states = b1 ∧
      (∀ p, FieldState.get e1.state c'.field_states p =
        FieldState.get e1.state b1 p) := by
  refine ⟨{ entities := assocInsert c0.entities idx e1,
            baseline_entities := assocInsert c0.baseline_entities cid e1,
            field_states := b1,
            field_states_alloc := a1,
            fetch_log := c0.fetch_log ++ [cid] }, ?_, ?_, rfl, fun _ => rfl⟩
  · simp only [EntityContainer.handle_create, hmiss, hparse, Entity.parse]
  · exact assocLookup_insert ..

/-- Witness for C1 (amended): class 7 at slot 1 on a fresh container,
baseline bytes decoding to `[0] := 100`. -/
theorem handle_create_pristine_baseline_empty_delta_witness :
    ∃ c', EntityContainer.new.handle_create 1 7 0 [([0], 100)] [] = some c' ∧
      assocLookup c'.baseline_entities 7 =
        some ⟨1, 0, ⟨none, some (0, 8)⟩⟩ ∧
      c'.field_states =
        (fun j => if j = 0 then (⟨some 100, none⟩ : FieldState)
          else ⟨none, none⟩) ∧
      (∀ p, FieldState.get (⟨none, some (0, 8)⟩ : FieldState)
        c'.field_states p =
        FieldState.get ⟨none, some (0, 8)⟩
          (fun j => if j = 0 then (⟨some 100, none⟩ : FieldState)
            else ⟨none, none⟩) p) :=
  handle_create_pristine_baseline_empty_delta EntityContainer.new 1 7 0
    [([0], 100)] ⟨1, 0, ⟨none, some (0, 8)⟩⟩
    (fun j => if j = 0 then ⟨some 100, none⟩ else ⟨none, none⟩)
    ⟨[(8, 131072)]⟩ rfl rfl

/-- C5: across two CREATEs of the same class with no intervening
`clear()`, the instance-baseline source is consulted exactly once: the
first call (class not yet cached) appends the class id to the fetch
log, and the second call leaves the fetch log and the baseline map
unchanged, building its entity from the cached one with only the index
overridden to the new slot. -/
theorem baseline_fetched_at_most_once (c0 : EntityContainer)
    (cid idx1 idx2 : Int) (ser : Nat)
    (bp dp1 dp2 : Payload) (c1 c2 : EntityContainer)
    (hmiss : assocLookup c0.baseline_entities cid = none)
    (h1 : c0.handle_create idx1 cid ser bp dp1 = some c1)
    (h2 : c1.handle_create idx2 cid ser bp dp2 = some c2) :
    c1.fetch_log = c0.fetch_log ++ [cid] ∧
    c2.fetch_log = c1.fetch_log ∧
    c2.baseline_entities = c1.baseline_entities ∧
    ∃ cached e2 b2 a2,
      assocLookup c1.baseline_entities cid = some cached ∧
      Entity.parse { cached with index := idx2 } dp2 c1.field_states
        c1.field_states_alloc = some (e2, b2, a2) ∧
      assocLookup c2.entities idx2 = some e2 := by
  simp only [EntityContainer.handle_create, hmiss] at h1
  cases hp1 : Entity.parse { index := idx1, serializer := ser, state := {} }
      bp c0.field_states c0.field_states_alloc with
  | none => rw [hp1] at h1; exact absurd h1 (by simp)
  | some r1 =>
    obtain ⟨e1, b1, a1⟩ := r1
    rw [hp1] at h1
    dsimp only at h1
    cases hp2 : Entity.parse e1 dp1 b1 a1 with
    | none => rw [hp2] at h1; exact absurd h1 (by simp)
    | some r2 =>
      obtain ⟨e2', b2', a2'⟩ := r2
      rw [hp2] at h1
      dsimp only at h1
      injection h1 with h1'
      subst h1'
      simp only [EntityContainer.handle_create, assocLookup_insert] at h2
      cases hp3 : Entity.parse { e1 with index := idx2 } dp2 b2' a2' with
      | none => rw [hp3] at h2; exact absurd h2 (by simp)
      | some r3 =>
        obtain ⟨e3, b3, a3⟩ := r3
        rw [hp3] at h2
        dsimp only at h2
        injection h2 with h2'
        subst h2'
        exact ⟨rfl, rfl, rfl, e1, e3, b3, a3, assocLookup_insert .., hp3,
          assocLookup_insert ..⟩

/-- Witness for C5: two CREATEs of class 7 (slots 1 then 9) with empty
payloads on a fresh container. -/
theorem baseline_fetched_at_most_once_witness :
    afterFirstCreate.fetch_log = EntityContainer.new.fetch_log ++ [7] ∧
    afterSecondCreate.fetch_log = afterFirstCreate.fetch_log ∧
    afterSecondCreate.baseline_entities = afterFirstCreate.baseline_entities ∧
    ∃ cached e2 b2 a2,
      assocLookup afterFirstCreate.baseline_entities 7 = some cached ∧
      Entity.parse { cached with index := 9 } [] afterFirstCreate.field_states
        afterFirstCreate.field_states_alloc = some (e2, b2, a2) ∧
      assocLookup afterSecondCreate.entities 9 = some e2 :=
  baseline_fetched_at_most_once EntityContainer.new 7 1 9 0 [] [] []
    afterFirstCreate afterSecondCreate rfl rfl rfl

/-- C8 fails as stated: an item whose class-id string parses to an id
outside the bounds of `strs` makes `update` panic (index out of
bounds) rather than return `Ok`.  With `classes = 3` and one item whose
string is `"5"` — which parses fine — `update` faults, although the
claim promises `Ok` whenever every class-id string parses. -/
theorem instancebaseline_update_fault_cex :
    updateOob = UpdateResult.fault ∧ parseI32 ['5'] = some 5 :=
  ⟨rfl, by decide⟩

theorem updateGo_spec (items : List (Int × STItem)) :
    ∀ strs : List (Option (List Nat)),
    (∀ p ∈ items, p.2.string.isSome) →
    (∀ p ∈ items, ∀ s cid, p.2.string = some s → parseI32 s = some cid →
      0 ≤ cid ∧ cid.toNat < strs.length) →
    ((updateGo strs items = UpdateResult.parseIntErr ↔
      ∃ p ∈ items, ∃ s, p.2.string = some s ∧ parseI32 s = none) ∧
    ((∀ p ∈ items, ∀ s, p.2.string = some s → (parseI32 s).isSome) →
      ∃ strs', updateGo strs items = UpdateResult.ok ⟨strs'⟩ ∧
        strs'.length = strs.length ∧
        ∀ cid : Int, 0 ≤ cid →
          strs'.getD cid.toNat none =
            (lastData items cid).getD (strs.getD cid.toNat none))) := by
  induction items with
  | nil =>
    intro strs _ _
    constructor
    · simp [updateGo]
    · intro _
      exact ⟨strs, rfl, rfl, fun cid _ => rfl⟩
  | cons p rest ih =>
    intro strs hstr hbound
    obtain ⟨ei, item⟩ := p
    cases hs : item.string with
    | none =>
      have hsome := hstr (ei, item) (List.mem_cons_self ..)
      rw [hs] at hsome
      exact absurd hsome (by simp)
    | some s =>
      cases hp : parseI32 s with
      | none =>
        constructor
        · constructor
          · intro _
            exact ⟨(ei, item), List.mem_cons_self .., s, hs, hp⟩
          · intro _
            show updateGo strs ((ei, item) :: rest) = UpdateResult.parseIntErr
            simp only [updateGo]
            rw [hs]
            dsimp only
            rw [hp]
        · intro hall
          have hsome := hall (ei, item) (List.mem_cons_self ..) s hs
          rw [hp] at hsome
          exact absurd hsome (by simp)
      | some cid =>
        have hb := hbound (ei, item) (List.mem_cons_self ..) s cid hs hp
        have hgo : updateGo strs ((ei, item) :: rest) =
            updateGo (strs.set cid.toNat item.user_data) rest := by
          simp only [updateGo]
          rw [hs]
          dsimp only
          rw [hp]
          dsimp only
          rw [if_pos hb]
        have hlen : (strs.set cid.toNat item.user_data).length = strs.length :=
          List.length_set ..
        have ih' := ih (strs.set cid.toNat item.user_data)
          (fun q hq => hstr q (List.mem_cons_of_mem _ hq))
          (fun q hq s' cid' hq1 hq2 => by
            rw [hlen]
            exact hbound q (List.mem_cons_of_mem _ hq) s' cid' hq1 hq2)
        constructor
        · rw [hgo, ih'.1]
          constructor
          · rintro ⟨q, hq, s', hq1, hq2⟩
            exact ⟨q, List.mem_cons_of_mem _ hq, s', hq1, hq2⟩
          · rintro ⟨q, hq, s', hq1, hq2⟩
            rcases List.mem_cons.mp hq with hqh | hqt
            · subst hqh
              rw [hs] at hq1
              injection hq1 with hq1
              subst hq1
              rw [hp] at hq2
              exact absurd hq2 (by simp)
            · exact ⟨q, hqt, s', hq1, hq2⟩
        · intro hall
          obtain ⟨strs', hok, hlen', hget⟩ := ih'.2
            (fun q hq => hall q (List.mem_cons_of_mem _ hq))
          refine ⟨strs', by rw [hgo]; exact hok, by rw [hlen', hlen], ?_⟩
          intro cid' hcid'
          rw [hget cid' hcid']
          cases hld : lastData rest cid' with
          | some ud =>
            have hcons : lastData ((ei, item) :: rest) cid' = some ud := by
              simp only [lastData, hld]
            rw [hcons]
            rfl
          | none =>
            have hcons : lastData ((ei, item) :: rest) cid' =
                (if cid = cid' then some item.user_data else none) := by
              simp only [lastData, hld, hs, Option.some_bind, hp]
            rw [hcons]
            by_cases hceq : cid = cid'
            · subst hceq
              rw [if_pos rfl]
              show (strs.set cid.toNat item.user_data).getD cid.toNat none = _
              rw [List.getD_eq_getElem?_getD,
                List.getElem?_set_self (by omega)]
              rfl
            · rw [if_neg hceq]
              have hne : cid.toNat ≠ cid'.toNat := by omega
              show (strs.set cid.toNat item.user_data).getD cid'.toNat none = _
              rw [List.getD_eq_getElem?_getD, List.getElem?_set_ne hne,
                ← List.getD_eq_getElem?_getD]
              rfl

/-- C8 (amended): provided every item carries a string and every
successfully parsed class id lies within `[0, max(classes, initial
length))` — ids outside those bounds make `update` panic instead, as
the counterexample shows — `update` returns a ParseInt error iff some
item's class-id string fails to parse as a decimal `i32`; when
additionally every string parses, `update` returns `Ok` and
`get_data(class_id)` afterwards returns the user-data blob of the last
item whose string parsed to `class_id` (`none` when that item carried
no blob). -/
theorem instancebaseline_update_ok_spec (ib : InstanceBaseline)
    (st : StringTable) (classes : Nat)
    (hstr : ∀ p ∈ st.items, p.2.string.isSome)
    (hbound : ∀ p ∈ st.items, ∀ s cid, p.2.string = some s →
      parseI32 s = some cid →
      0 ≤ cid ∧ cid.toNat < max classes ib.strs.length) :
    (ib.update st classes = UpdateResult.parseIntErr ↔
      ∃ p ∈ st.items, ∃ s, p.2.string = some s ∧ parseI32 s = none) ∧
    ((∀ p ∈ st.items, ∀ s, p.2.string = some s → (parseI32 s).isSome) →
      ∃ ib', ib.update st classes = UpdateResult.ok ib' ∧
        ∀ cid ud, 0 ≤ cid → lastData st.items cid = some ud →
          ib'.get_data cid = ud) := by
  have hupd : ib.update st classes =
      updateGo (if ib.strs.length < classes then
        ib.strs ++ List.replicate (classes - ib.strs.length) none
      else ib.strs) st.items := rfl
  have hlen0 : (if ib.strs.length < classes then
      ib.strs ++ List.replicate (classes - ib.strs.length) none
    else ib.strs).length = max classes ib.strs.length := by
    split
    · rw [List.length_append, List.length_replicate]
      omega
    · omega
  have hspec := updateGo_spec st.items
    (if ib.strs.length < classes then
      ib.strs ++ List.replicate (classes - ib.strs.length) none
    else ib.strs) hstr
    (fun q hq s cid hq1 hq2 => by
      rw [hlen0]
      exact hbound q hq s cid hq1 hq2)
  constructor
  · rw [hupd]
    exact hspec.1
  · intro hall
    obtain ⟨strs', hok, _, hget⟩ := hspec.2 hall
    refine ⟨⟨strs'⟩, by rw [hupd]; exact hok, ?_⟩
    intro cid ud hcid hld
    show InstanceBaseline.get_data ⟨strs'⟩ cid = ud
    unfold InstanceBaseline.get_data
    rw [if_pos hcid]
    have hg := hget cid hcid
    rw [hld] at hg
    exact hg

/-- Witness for C8 (amended): one item with class-id string `"2"` and
blob `[9]`, `classes = 3`, on an empty baseline. -/
theorem instancebaseline_update_ok_spec_witness :
    ((⟨[]⟩ : InstanceBaseline).update
        ⟨[((0 : Int), (⟨some ['2'], some [9]⟩ : STItem))]⟩ 3 =
        UpdateResult.parseIntErr ↔
      ∃ p ∈ [((0 : Int), (⟨some ['2'], some [9]⟩ : STItem))],
        ∃ s, p.2.string = some s ∧ parseI32 s = none) ∧
    ((∀ p ∈ [((0 : Int), (⟨some ['2'], some [9]⟩ : STItem))],
        ∀ s, p.2.string = some s → (parseI32 s).isSome) →
      ∃ ib', (⟨[]⟩ : InstanceBaseline).update
          ⟨[((0 : Int), (⟨some ['2'], some [9]⟩ : STItem))]⟩ 3 =
          UpdateResult.ok ib' ∧
        ∀ cid ud, 0 ≤ cid →
          lastData [((0 : Int), (⟨some ['2'], some [9]⟩ : STItem))] cid =
            some ud →
          ib'.get_data cid = ud) :=
  instancebaseline_update_ok_spec ⟨[]⟩
    ⟨[((0 : Int), (⟨some ['2'], some [9]⟩ : STItem))]⟩ 3
    (by intro p hp; rw [List.mem_singleton] at hp; subst hp; rfl)
    (by
      intro p hp s cid h1 h2
      rw [List.mem_singleton] at hp
      subst hp
      injection h1 with h1
      subst h1
      have h3 : parseI32 ['2'] = some 2 := by decide
      rw [h3] at h2
      injection h2 with h2
      subst h2
      exact ⟨by decide, by decide⟩)

end Haste
